import Mathlib

/-!
Verification of the Beaver's Choice / Munder Difflin paper-company core
(`project_starter.py`): the append-only transaction ledger, its point-in-time
query functions, the delivery estimator, and the deterministic multi-agent
workflow coordinator.

The ledger (`transactions` SQLite table) is embedded as a `List` of
`TransactionRecord`s, in insertion order.  SQLite compares TEXT values by
bytes (memcmp); for the ASCII date strings used here this is exactly
lexicographic comparison of the character sequences, embedded as `textLe`.
Monetary amounts (SQLite REAL / Python float) are embedded as `ℚ`.
-/

/-- A row of the `transactions` table.  `item_name` and `units` are nullable
(`init_database` seeds the opening cash balance as a `sales` row with NULL
`item_name` and NULL `units`). -/
structure TransactionRecord where
  item_name : Option String
  transaction_type : String
  units : Option Int
  price : ℚ
  transaction_date : String
deriving Repr, DecidableEq

/-- Byte-wise lexicographic comparison of character sequences: the order
SQLite's memcmp applies to the TEXT dates compared by
`transaction_date <= :as_of_date`. -/
def strLeList : List Char → List Char → Bool
  | [], _ => true
  | _ :: _, [] => false
  | a :: as, b :: bs =>
    if a.toNat < b.toNat then true
    else if b.toNat < a.toNat then false
    else strLeList as bs

/-- `a <= b` on TEXT values, as SQLite evaluates the date cutoff. -/
def textLe (a b : String) : Bool := strLeList a.data b.data

/-- The `CASE WHEN transaction_type = 'stock_orders' THEN units WHEN
transaction_type = 'sales' THEN -units ELSE 0 END` expression shared by
`get_stock_level` and `get_all_inventory`.  A NULL `units` contributes
nothing to `SUM` (same as contributing 0). -/
def caseUnits (r : TransactionRecord) : Int :=
  if r.transaction_type = "stock_orders" then r.units.getD 0
  else if r.transaction_type = "sales" then -(r.units.getD 0)
  else 0

/-- `get_stock_level(item_name, as_of_date)` (`project_starter.py:342`): the
`current_stock` value, i.e. `COALESCE(SUM(CASE ...), 0)` over rows with
`item_name = :item_name AND transaction_date <= :as_of_date`.  (The aggregate
over an empty row set is 0 via `COALESCE`, and the `df.empty` fallback also
returns 0.) -/
def get_stock_level (ledger : List TransactionRecord) (item_name as_of_date : String) : Int :=
  ((ledger.filter (fun r => r.item_name == some item_name
      && textLe r.transaction_date as_of_date)).map caseUnits).sum

/-- Sum of `units` over `stock_orders` rows for `i` dated `<= d`
(the first summand of the spec's `netStock` formula). -/
def stock_orders_units (ledger : List TransactionRecord) (i d : String) : Int :=
  ((ledger.filter (fun r => r.transaction_type == "stock_orders"
      && r.item_name == some i && textLe r.transaction_date d)).map
    (fun r => r.units.getD 0)).sum

/-- Sum of `units` over `sales` rows for `i` dated `<= d`
(the second summand of the spec's `netStock` formula). -/
def sales_units (ledger : List TransactionRecord) (i d : String) : Int :=
  ((ledger.filter (fun r => r.transaction_type == "sales"
      && r.item_name == some i && textLe r.transaction_date d)).map
    (fun r => r.units.getD 0)).sum

/-- `get_cash_balance(as_of_date)` (`project_starter.py:432`): select the rows
dated `<= as_of_date`; if none, return `0.0`; otherwise the sum of `price`
over the `sales` rows minus the sum over the `stock_orders` rows. -/
def get_cash_balance (ledger : List TransactionRecord) (as_of_date : String) : ℚ :=
  let transactions := ledger.filter (fun r => textLe r.transaction_date as_of_date)
  if transactions.isEmpty then 0
  else
    ((transactions.filter (fun r => r.transaction_type == "sales")).map
      (fun r => r.price)).sum
    - ((transactions.filter (fun r => r.transaction_type == "stock_orders")).map
      (fun r => r.price)).sum

/-- Sum of `price` over `sales` rows dated `<= d`. -/
def sales_price_sum (ledger : List TransactionRecord) (d : String) : ℚ :=
  ((ledger.filter (fun r => r.transaction_type == "sales"
      && textLe r.transaction_date d)).map (fun r => r.price)).sum

/-- Sum of `price` over `stock_orders` rows dated `<= d`. -/
def stock_orders_price_sum (ledger : List TransactionRecord) (d : String) : ℚ :=
  ((ledger.filter (fun r => r.transaction_type == "stock_orders"
      && textLe r.transaction_date d)).map (fun r => r.price)).sum

theorem get_stock_level_eq_sub (l : List TransactionRecord) (i d : String) :
    get_stock_level l i d = stock_orders_units l i d - sales_units l i d := by
  induction l with
  | nil => rfl
  | cons r t ih =>
    by_cases h1 : r.item_name = some i <;>
      by_cases h2 : textLe r.transaction_date d <;>
      by_cases h3 : r.transaction_type = "stock_orders" <;>
      by_cases h4 : r.transaction_type = "sales" <;>
      simp [get_stock_level, stock_orders_units, sales_units, List.filter_cons,
        caseUnits, h1, h2, h3, h4] at ih ⊢ <;>
      omega

theorem get_stock_level_no_match (l : List TransactionRecord) (i d : String)
    (h : ∀ r ∈ l, ¬(r.item_name = some i ∧ textLe r.transaction_date d = true)) :
    get_stock_level l i d = 0 := by
  have : l.filter (fun r => r.item_name == some i && textLe r.transaction_date d) = [] := by
    apply List.filter_eq_nil_iff.mpr
    intro r hr
    simp only [Bool.and_eq_true, beq_iff_eq]
    intro hc
    exact h r hr ⟨hc.1, hc.2⟩
  simp [get_stock_level, this]

/-- The two-record ledger of the spec's concrete scenario. -/
def scenarioLedger : List TransactionRecord :=
  [⟨some "A4 paper", "stock_orders", some 1000, 50, "2025-01-01"⟩,
   ⟨some "A4 paper", "sales", some 200, 40, "2025-01-10"⟩]

/-- **C1.** `get_stock_level` computes the net-stock formula: the sum of
`units` over `stock_orders` rows for the item dated `<= as_of_date`, minus the
same sum over `sales` rows; it returns 0 (not an error) when no row matches;
and on the concrete two-record scenario ledger it returns 1000 as of
2025-01-09 and 800 as of 2025-01-10. -/
theorem C1_get_stock_level_net_stock :
    (∀ (l : List TransactionRecord) (i d : String),
        get_stock_level l i d = stock_orders_units l i d - sales_units l i d) ∧
    (∀ (l : List TransactionRecord) (i d : String),
        (∀ r ∈ l, ¬(r.item_name = some i ∧ textLe r.transaction_date d = true)) →
        get_stock_level l i d = 0) ∧
    get_stock_level scenarioLedger "A4 paper" "2025-01-09" = 1000 ∧
    get_stock_level scenarioLedger "A4 paper" "2025-01-10" = 800 := by
  refine ⟨get_stock_level_eq_sub, get_stock_level_no_match, by decide, by decide⟩

/-- Witness for the hypothesis-bearing conjunct of `C1_get_stock_level_net_stock`:
a one-row ledger in which no record matches item `"B5"` as of `2025-01-09`. -/
theorem C1_get_stock_level_net_stock_witness :
    get_stock_level scenarioLedger "B5" "2025-01-09" = 0 := by
  apply (C1_get_stock_level_net_stock.2.1) scenarioLedger "B5" "2025-01-09"
  decide

theorem get_cash_balance_eq_sub (l : List TransactionRecord) (d : String) :
    get_cash_balance l d = sales_price_sum l d - stock_orders_price_sum l d := by
  have hs : sales_price_sum l d =
      (((l.filter (fun r => textLe r.transaction_date d)).filter
        (fun r => r.transaction_type == "sales")).map (fun r => r.price)).sum := by
    simp only [sales_price_sum]
    rw [List.filter_filter]
  have ho : stock_orders_price_sum l d =
      (((l.filter (fun r => textLe r.transaction_date d)).filter
        (fun r => r.transaction_type == "stock_orders")).map (fun r => r.price)).sum := by
    simp only [stock_orders_price_sum]
    rw [List.filter_filter]
  by_cases h : (l.filter (fun r => textLe r.transaction_date d)).isEmpty
  · rw [List.isEmpty_iff] at h
    simp [get_cash_balance, h, hs, ho]
  · simp [get_cash_balance, h, hs, ho]

theorem get_cash_balance_no_records (l : List TransactionRecord) (d : String)
    (h : ∀ r ∈ l, textLe r.transaction_date d = false) :
    get_cash_balance l d = 0 := by
  have : l.filter (fun r => textLe r.transaction_date d) = [] := by
    apply List.filter_eq_nil_iff.mpr
    intro r hr
    simp [h r hr]
  simp [get_cash_balance, this]

/-- **C2.** `get_cash_balance` returns the sum of `price` over `sales` rows
dated `<= as_of_date` minus the sum over `stock_orders` rows in the same
window, and returns `0.0` when no record is dated `<= as_of_date` (in
particular before the first transaction). -/
theorem C2_get_cash_balance :
    (∀ (l : List TransactionRecord) (d : String),
        get_cash_balance l d = sales_price_sum l d - stock_orders_price_sum l d) ∧
    (∀ (l : List TransactionRecord) (d : String),
        (∀ r ∈ l, textLe r.transaction_date d = false) →
        get_cash_balance l d = 0) := by
  exact ⟨get_cash_balance_eq_sub, get_cash_balance_no_records⟩

/-- Witness for the hypothesis-bearing conjunct of `C2_get_cash_balance`:
querying the scenario ledger before its first transaction yields 0. -/
theorem C2_get_cash_balance_witness :
    get_cash_balance scenarioLedger "2024-12-31" = 0 := by
  apply C2_get_cash_balance.2 scenarioLedger "2024-12-31"
  decide

/-- `create_transaction(item_name, transaction_type, quantity, price, date)`
(`project_starter.py:244`): validates that `transaction_type` is one of
`stock_orders`/`sales` and raises a `ValueError` otherwise (before anything is
written); on success appends the single-row record to the `transactions` table
and returns `last_insert_rowid()`, the rowid of the appended row
(`ledger.length + 1` for the append-only table).  The raised error is the
`Except.error` case; it carries no new ledger, so nothing is written. -/
def create_transaction (ledger : List TransactionRecord) (item_name : String)
    (transaction_type : String) (quantity : Int) (price : ℚ) (date : String) :
    Except String (List TransactionRecord × Nat) :=
  if transaction_type = "stock_orders" ∨ transaction_type = "sales" then
    Except.ok
      (ledger ++ [⟨some item_name, transaction_type, some quantity, price, date⟩],
       ledger.length + 1)
  else
    Except.error "Transaction type must be stock_orders or sales"

/-- **C5.** `create_transaction` fails with a validation error exactly when
`transaction_type` is neither `stock_orders` nor `sales`; the error is
propagated (the `Except.error` result) and the ledger is unchanged — no ok
result exists; otherwise the record is appended and its rowid returned. -/
theorem C5_create_transaction_validation :
    ∀ (l : List TransactionRecord) (item t : String) (q : Int) (p : ℚ) (d : String),
      ((∃ e, create_transaction l item t q p d = Except.error e) ↔
        (t ≠ "stock_orders" ∧ t ≠ "sales")) ∧
      (t ≠ "stock_orders" ∧ t ≠ "sales" →
        create_transaction l item t q p d =
          Except.error "Transaction type must be stock_orders or sales") ∧
      (t = "stock_orders" ∨ t = "sales" →
        create_transaction l item t q p d =
          Except.ok (l ++ [⟨some item, t, some q, p, d⟩], l.length + 1)) := by
  intro l item t q p d
  refine ⟨⟨?_, ?_⟩, ?_, ?_⟩
  · rintro ⟨e, he⟩
    by_cases h : t = "stock_orders" ∨ t = "sales"
    · simp [create_transaction, h] at he
    · exact ⟨fun h1 => h (Or.inl h1), fun h2 => h (Or.inr h2)⟩
  · intro ⟨h1, h2⟩
    refine ⟨"Transaction type must be stock_orders or sales", ?_⟩
    simp [create_transaction, h1, h2]
  · intro ⟨h1, h2⟩
    simp [create_transaction, h1, h2]
  · intro h
    simp [create_transaction, h]

/-- Witness for `C5_create_transaction_validation`: at `t = "refund"` the
append is rejected with the validation error, and at `t = "sales"` the record
is appended with rowid 1. -/
theorem C5_create_transaction_validation_witness :
    create_transaction [] "A4 paper" "refund" 5 (2 : ℚ) "2025-02-01" =
      Except.error "Transaction type must be stock_orders or sales" ∧
    create_transaction [] "A4 paper" "sales" 5 (2 : ℚ) "2025-02-01" =
      Except.ok ([⟨some "A4 paper", "sales", some 5, 2, "2025-02-01"⟩], 1) := by
  constructor
  · exact (C5_create_transaction_validation [] "A4 paper" "refund" 5 2 "2025-02-01").2.1
      (by decide)
  · exact (C5_create_transaction_validation [] "A4 paper" "sales" 5 2 "2025-02-01").2.2
      (Or.inr rfl)

/-- `get_all_inventory(as_of_date)` (`project_starter.py:301`): for the rows
with `item_name IS NOT NULL AND transaction_date <= :as_of_date`, group by
`item_name`, sum the shared `CASE` expression, and keep the groups with
`stock > 0` (`HAVING`).  The Python function returns the groups as a dict;
the embedding returns the association list of `(item_name, stock)` pairs
(key order is immaterial to the mapping). -/
def get_all_inventory (ledger : List TransactionRecord) (as_of_date : String) :
    List (String × Int) :=
  let rows := ledger.filter
    (fun r => !(r.item_name == none) && textLe r.transaction_date as_of_date)
  let keys := (rows.filterMap (fun r => r.item_name)).dedup
  keys.filterMap (fun i =>
    let stock := ((rows.filter (fun r => r.item_name == some i)).map caseUnits).sum
    if 0 < stock then some (i, stock) else none)

/-- **C10.** NULL-item rows (pure cash movements such as the seeded
initial-capital `sales` row) never contribute to `get_all_inventory`:
prepending any record with `item_name = NULL` (the position `init_database`
seeds the cash row at) leaves the snapshot unchanged, and every entry of the
snapshot is keyed by (and derives from) a record with that non-null item
name. -/
theorem C10_get_all_inventory_ignores_null_items :
    (∀ (l : List TransactionRecord) (d : String) (r : TransactionRecord),
      r.item_name = none → get_all_inventory (r :: l) d = get_all_inventory l d) ∧
    (∀ (l : List TransactionRecord) (d : String) (e : String × Int),
      e ∈ get_all_inventory l d →
      ∃ rec ∈ l, rec.item_name = some e.1 ∧ textLe rec.transaction_date d = true) := by
  constructor
  · intro l d r hr
    simp [get_all_inventory, List.filter_cons, hr]
  · intro l d e he
    simp only [get_all_inventory, List.mem_filterMap] at he
    obtain ⟨i, hi, hval⟩ := he
    have hkey : e.1 = i := by
      rcases ite_eq_iff.mp hval with ⟨hpos, hsome⟩ | ⟨hneg, hnone⟩
      · have he2 := (Option.some.inj hsome).symm
        subst he2
        rfl
      · exact absurd hnone (by simp)
    rw [List.mem_dedup, List.mem_filterMap] at hi
    obtain ⟨rec, hrec, hname⟩ := hi
    rw [List.mem_filter] at hrec
    refine ⟨rec, hrec.1, ?_, ?_⟩
    · rw [hkey]; exact hname
    · have := hrec.2
      simp only [Bool.and_eq_true] at this
      exact this.2

/-- Witness for `C10_get_all_inventory_ignores_null_items`: the seeded NULL-item
cash row does not change the snapshot of a one-item ledger, and the single
entry of that snapshot comes from the `A4 paper` stock order. -/
theorem C10_get_all_inventory_ignores_null_items_witness :
    get_all_inventory
        (⟨none, "sales", none, 50000, "2025-01-01T00:00:00"⟩ ::
          [⟨some "A4 paper", "stock_orders", some 300, 15, "2025-01-01T00:00:00"⟩])
        "2025-01-02"
      = get_all_inventory
          [⟨some "A4 paper", "stock_orders", some 300, 15, "2025-01-01T00:00:00"⟩]
          "2025-01-02" ∧
    ∃ rec ∈ [(⟨some "A4 paper", "stock_orders", some 300, 15,
        "2025-01-01T00:00:00"⟩ : TransactionRecord)],
      rec.item_name = some ("A4 paper", (300 : Int)).1 ∧
      textLe rec.transaction_date "2025-01-02" = true := by
  constructor
  · exact C10_get_all_inventory_ignores_null_items.1
      [⟨some "A4 paper", "stock_orders", some 300, 15, "2025-01-01T00:00:00"⟩]
      "2025-01-02" ⟨none, "sales", none, 50000, "2025-01-01T00:00:00"⟩ rfl
  · exact C10_get_all_inventory_ignores_null_items.2
      [⟨some "A4 paper", "stock_orders", some 300, 15, "2025-01-01T00:00:00"⟩]
      "2025-01-02" ("A4 paper", 300) (by decide)

/-- Output schema of the inventory agent (`InventoryResponse` pydantic
model). -/
structure InventoryResponse where
  answer : String
  proceed_with_order : Bool
deriving Repr, DecidableEq

/-- `WorkflowContext` pydantic model: per-request id and the immutable
original request text. -/
structure WorkflowContext where
  request_id : String
  original_request : String
deriving Repr, DecidableEq

/-- `MultiAgentWorkflow.agent_usage_count`: per-capability invocation
counters. -/
structure AgentUsageCount where
  inventory : Nat
  quoting : Nat
  sales : Nat
  invoice : Nat
deriving Repr, DecidableEq

/-- The external capabilities behind `run_sync`, as pure prompt → output
stubs (the spec's Capability Adapter contract; the natural-language content
of each stage is out of scope).  `classify` is the orchestration agent's
`classification` output on the raw request text; `quoting`, `sales` and
`invoice` return the plain-string `output` of their agents. -/
structure AgentStubs where
  classify : String → String
  inventory : String → InventoryResponse
  quoting : String → String
  sales : String → String
  invoice : String → String

/-- The f-string prompt `handle_inquiry` sends to the inventory agent. -/
def inquiryPrompt (request : String) : String :=
  "\n        Classification: INQUIRY\n\n        User Request: " ++ request ++ "\n        "

/-- The f-string `inventory_prompt` of `handle_order`. -/
def orderInventoryPrompt (request : String) : String :=
  "\n            Classification: ORDER\n    \n            User Request: " ++ request
    ++ "\n        "

/-- The f-string `quote_prompt` of `handle_order`: original request plus the
inventory stage's answer. -/
def quotePrompt (request invAnswer : String) : String :=
  "\n            User Request: " ++ request
    ++ "\n            Inventory Context: " ++ invAnswer ++ "\n        "

/-- The f-string `sales_prompt` of `handle_order`: original request plus the
inventory and quoting outputs. -/
def salesPrompt (request invAnswer quote : String) : String :=
  "\n            User Request: " ++ request
    ++ "\n            Inventory Context: " ++ invAnswer
    ++ "\n            Quote Context: " ++ quote ++ "\n        "

/-- The f-string `invoice_prompt` of `handle_order`: original request plus
every prior stage's output. -/
def invoicePrompt (request invAnswer quote sales : String) : String :=
  "\n            User Request: " ++ request
    ++ "\n            Inventory Context: " ++ invAnswer
    ++ "\n            Quote Context: " ++ quote
    ++ "\n            Sales Context: " ++ sales ++ "\n        "

/-- `MultiAgentWorkflow.handle_inquiry` (`project_starter.py:1036`): one
inventory-agent call, one `inventory` counter increment, and the agent's
`InventoryResponse` output is returned. -/
def MultiAgentWorkflow.handle_inquiry (agents : AgentStubs) (context : WorkflowContext)
    (usage : AgentUsageCount) : InventoryResponse × AgentUsageCount :=
  let inventory_response := agents.inventory (inquiryPrompt context.original_request)
  (inventory_response, { usage with inventory := usage.inventory + 1 })

/-- `MultiAgentWorkflow.handle_order` (`project_starter.py:1054`): inventory
agent first; if its `proceed_with_order` flag is false the inventory answer is
returned at once; otherwise quoting, sales finalization and invoicing run in
sequence, each prompt accumulating the prior outputs, and the invoice output
is returned.  Each completed call increments its usage counter. -/
def MultiAgentWorkflow.handle_order (agents : AgentStubs) (context : WorkflowContext)
    (usage : AgentUsageCount) : String × AgentUsageCount :=
  let inventory_response := agents.inventory (orderInventoryPrompt context.original_request)
  let usage := { usage with inventory := usage.inventory + 1 }
  if !inventory_response.proceed_with_order then
    (inventory_response.answer, usage)
  else
    let quoting_response := agents.quoting
      (quotePrompt context.original_request inventory_response.answer)
    let usage := { usage with quoting := usage.quoting + 1 }
    let sales_response := agents.sales
      (salesPrompt context.original_request inventory_response.answer quoting_response)
    let usage := { usage with sales := usage.sales + 1 }
    let invoice_response := agents.invoice
      (invoicePrompt context.original_request inventory_response.answer quoting_response
        sales_response)
    let usage := { usage with invoice := usage.invoice + 1 }
    (invoice_response, usage)

/-- The value `MultiAgentWorkflow.run` returns: the INQUIRY branch returns the
inventory agent's `InventoryResponse` object, the other branches return
strings. -/
inductive RunResponse where
  | inquiry (out : InventoryResponse)
  | text (s : String)
deriving Repr, DecidableEq

/-- `MultiAgentWorkflow.run` (`project_starter.py:1111`): classify the raw
request, route INQUIRY to `handle_inquiry`, ORDER to `handle_order`, and
answer any other classification with the fixed invalid-classification
message, touching no other agent and no counter. -/
def MultiAgentWorkflow.run (agents : AgentStubs) (request_id customer_request : String)
    (usage : AgentUsageCount) : RunResponse × AgentUsageCount :=
  let context : WorkflowContext := ⟨request_id, customer_request⟩
  let classification := agents.classify customer_request
  if classification = "INQUIRY" then
    let r := MultiAgentWorkflow.handle_inquiry agents context usage
    (RunResponse.inquiry r.1, r.2)
  else if classification = "ORDER" then
    let r := MultiAgentWorkflow.handle_order agents context usage
    (RunResponse.text r.1, r.2)
  else
    (RunResponse.text "Invalid classification received from orchestration agent.", usage)

/-- **C3.** When the inventory agent's `proceed_with_order` flag is false,
`handle_order` returns that agent's answer verbatim, increments only the
`inventory` counter (quoting/sales/invoice counters unchanged), and the
quoting, sales-finalization and invoicing capabilities are never invoked: the
result does not depend on them at all. -/
theorem C3_handle_order_early_exit :
    ∀ (agents : AgentStubs) (ctx : WorkflowContext) (usage : AgentUsageCount),
      (agents.inventory (orderInventoryPrompt ctx.original_request)).proceed_with_order
          = false →
      MultiAgentWorkflow.handle_order agents ctx usage =
        ((agents.inventory (orderInventoryPrompt ctx.original_request)).answer,
         ⟨usage.inventory + 1, usage.quoting, usage.sales, usage.invoice⟩) ∧
      (∀ agents2 : AgentStubs, agents2.inventory = agents.inventory →
        MultiAgentWorkflow.handle_order agents2 ctx usage =
          MultiAgentWorkflow.handle_order agents ctx usage) := by
  intro agents ctx usage h
  constructor
  · simp [MultiAgentWorkflow.handle_order, h]
  · intro agents2 h2
    simp [MultiAgentWorkflow.handle_order, h2, h]

/-- Witness for `C3_handle_order_early_exit` at a concrete stub whose
inventory capability refuses the order. -/
theorem C3_handle_order_early_exit_witness :
    MultiAgentWorkflow.handle_order
        ⟨fun _ => "ORDER", fun _ => ⟨"out of stock", false⟩,
         fun _ => "quote", fun _ => "sold", fun _ => "invoice"⟩
        ⟨"REQ_1", "I want 500 sheets"⟩ ⟨0, 0, 0, 0⟩ =
      ("out of stock", ⟨1, 0, 0, 0⟩) := by
  exact (C3_handle_order_early_exit
    ⟨fun _ => "ORDER", fun _ => ⟨"out of stock", false⟩,
     fun _ => "quote", fun _ => "sold", fun _ => "invoice"⟩
    ⟨"REQ_1", "I want 500 sheets"⟩ ⟨0, 0, 0, 0⟩ rfl).1

/-- **C4.** When the inventory agent's `proceed_with_order` flag is true,
`handle_order` invokes quoting, then sales finalization, then invoicing — the
quote prompt carries the request and the inventory answer, the sales prompt
additionally the quote, the invoice prompt additionally the sales output —
returns the invoicing output as the final response, and increments each of the
four usage counters exactly once. -/
theorem C4_handle_order_full_pipeline :
    ∀ (agents : AgentStubs) (ctx : WorkflowContext) (usage : AgentUsageCount),
      (agents.inventory (orderInventoryPrompt ctx.original_request)).proceed_with_order
          = true →
      MultiAgentWorkflow.handle_order agents ctx usage =
        (let invAnswer :=
          (agents.inventory (orderInventoryPrompt ctx.original_request)).answer
        let quote := agents.quoting (quotePrompt ctx.original_request invAnswer)
        let sales := agents.sales (salesPrompt ctx.original_request invAnswer quote)
        (agents.invoice (invoicePrompt ctx.original_request invAnswer quote sales),
         ⟨usage.inventory + 1, usage.quoting + 1, usage.sales + 1, usage.invoice + 1⟩)) := by
  intro agents ctx usage h
  simp [MultiAgentWorkflow.handle_order, h]

/-- Witness for `C4_handle_order_full_pipeline` at concrete stubs: the final
response is the invoice built from the accumulated context and all four
counters advance by one. -/
theorem C4_handle_order_full_pipeline_witness :
    MultiAgentWorkflow.handle_order
        ⟨fun _ => "ORDER", fun _ => ⟨"in stock", true⟩,
         fun p => "Q[" ++ p ++ "]", fun p => "S[" ++ p ++ "]", fun p => "I[" ++ p ++ "]"⟩
        ⟨"REQ_2", "buy 5 plates"⟩ ⟨3, 1, 4, 1⟩ =
      ("I[" ++ invoicePrompt "buy 5 plates" "in stock"
          ("Q[" ++ quotePrompt "buy 5 plates" "in stock" ++ "]")
          ("S[" ++ salesPrompt "buy 5 plates" "in stock"
            ("Q[" ++ quotePrompt "buy 5 plates" "in stock" ++ "]") ++ "]") ++ "]",
       ⟨4, 2, 5, 2⟩) := by
  exact C4_handle_order_full_pipeline
    ⟨fun _ => "ORDER", fun _ => ⟨"in stock", true⟩,
     fun p => "Q[" ++ p ++ "]", fun p => "S[" ++ p ++ "]", fun p => "I[" ++ p ++ "]"⟩
    ⟨"REQ_2", "buy 5 plates"⟩ ⟨3, 1, 4, 1⟩ rfl

/-- **C8.** When the classifier output is neither `INQUIRY` nor `ORDER`,
`run` answers with the fixed invalid-classification message, leaves every
usage counter unchanged, and invokes no downstream capability: the result does
not depend on the inventory/quoting/sales/invoice capabilities. -/
theorem C8_run_invalid_classification :
    ∀ (agents : AgentStubs) (rid req : String) (usage : AgentUsageCount),
      agents.classify req ≠ "INQUIRY" →
      agents.classify req ≠ "ORDER" →
      MultiAgentWorkflow.run agents rid req usage =
        (RunResponse.text "Invalid classification received from orchestration agent.",
         usage) ∧
      (∀ agents2 : AgentStubs, agents2.classify = agents.classify →
        MultiAgentWorkflow.run agents2 rid req usage =
          MultiAgentWorkflow.run agents rid req usage) := by
  intro agents rid req usage h1 h2
  constructor
  · simp [MultiAgentWorkflow.run, h1, h2]
  · intro agents2 hc
    simp [MultiAgentWorkflow.run, hc, h1, h2]

/-- Witness for `C8_run_invalid_classification` at a classifier stub that
emits the out-of-schema value `"REFUND"`. -/
theorem C8_run_invalid_classification_witness :
    MultiAgentWorkflow.run
        ⟨fun _ => "REFUND", fun _ => ⟨"a", true⟩,
         fun _ => "q", fun _ => "s", fun _ => "i"⟩
        "REQ_3" "please refund me" ⟨7, 2, 2, 2⟩ =
      (RunResponse.text "Invalid classification received from orchestration agent.",
       ⟨7, 2, 2, 2⟩) := by
  exact (C8_run_invalid_classification
    ⟨fun _ => "REFUND", fun _ => ⟨"a", true⟩,
     fun _ => "q", fun _ => "s", fun _ => "i"⟩
    "REQ_3" "please refund me" ⟨7, 2, 2, 2⟩ (by decide) (by decide)).1

/-- A calendar date, as Python's `datetime` restricted to its date fields. -/
structure Date where
  year : Nat
  month : Nat
  day : Nat
deriving Repr, DecidableEq

/-- Gregorian leap-year rule (Python `calendar.isleap` semantics). -/
def isLeap (y : Nat) : Bool := y % 4 == 0 && (!(y % 100 == 0) || y % 400 == 0)

/-- Number of days in a month of the Gregorian calendar. -/
def daysInMonth (y m : Nat) : Nat :=
  if m = 2 then (if isLeap y then 29 else 28)
  else if m = 4 ∨ m = 6 ∨ m = 9 ∨ m = 11 then 30
  else 31

/-- The calendar successor of a date. -/
def nextDay (dt : Date) : Date :=
  if dt.day < daysInMonth dt.year dt.month then ⟨dt.year, dt.month, dt.day + 1⟩
  else if dt.month < 12 then ⟨dt.year, dt.month + 1, 1⟩
  else ⟨dt.year + 1, 1, 1⟩

/-- `dt + timedelta(days = n)`: adding `n` calendar days. -/
def addDays (dt : Date) : Nat → Date
  | 0 => dt
  | n + 1 => addDays (nextDay dt) n

/-- The prefix of a character list before the first `'T'`:
`input_date_str.split("T")[0]`. -/
def splitBeforeT : List Char → List Char
  | [] => []
  | c :: cs => if c = 'T' then [] else c :: splitBeforeT cs

/-- Numeric value of a digit string. -/
def natOfDigits (cs : List Char) : Nat :=
  cs.foldl (fun a c => a * 10 + (c.toNat - 48)) 0

/-- `datetime.fromisoformat` on the date part: accepts exactly the zero-padded
`YYYY-MM-DD` layout with a valid Gregorian year/month/day, else fails. -/
def parseISODate (cs : List Char) : Option Date :=
  match cs with
  | [y1, y2, y3, y4, h1, m1, m2, h2, d1, d2] =>
    if h1 = '-' ∧ h2 = '-' ∧ ([y1, y2, y3, y4, m1, m2, d1, d2].all Char.isDigit) then
      let y := natOfDigits [y1, y2, y3, y4]
      let m := natOfDigits [m1, m2]
      let d := natOfDigits [d1, d2]
      if 1 ≤ y ∧ 1 ≤ m ∧ m ≤ 12 ∧ 1 ≤ d ∧ d ≤ daysInMonth y m then some ⟨y, m, d⟩
      else none
    else none
  | _ => none

/-- Zero-padded two-digit decimal rendering (for values below 100). -/
def pad2 (n : Nat) : String :=
  String.mk [Char.ofNat (48 + n / 10 % 10), Char.ofNat (48 + n % 10)]

/-- Zero-padded four-digit decimal rendering (for values below 10000). -/
def pad4 (n : Nat) : String :=
  String.mk [Char.ofNat (48 + n / 1000 % 10), Char.ofNat (48 + n / 100 % 10),
    Char.ofNat (48 + n / 10 % 10), Char.ofNat (48 + n % 10)]

/-- `strftime("%Y-%m-%d")`. -/
def formatDate (dt : Date) : String :=
  pad4 dt.year ++ "-" ++ pad2 dt.month ++ "-" ++ pad2 dt.day

/-- `get_supplier_delivery_date(input_date_str, quantity)`
(`project_starter.py:387`): parse the date part of `input_date_str`, falling
back to `datetime.now()` (the `today` parameter) on a parse failure; pick the
lead time from the quantity tier; return the date plus that many days,
formatted `%Y-%m-%d`. -/
def get_supplier_delivery_date (today : Date) (input_date_str : String)
    (quantity : Int) : String :=
  let input_date_dt :=
    match parseISODate (splitBeforeT input_date_str.data) with
    | some dt => dt
    | none => today
  let days : Nat :=
    if quantity ≤ 10 then 0
    else if quantity ≤ 100 then 1
    else if quantity ≤ 1000 then 4
    else 7
  formatDate (addDays input_date_dt days)

theorem gsdd_parse_eq (today : Date) (s : String) (q : Int) (dt : Date)
    (h : parseISODate (splitBeforeT s.data) = some dt) :
    get_supplier_delivery_date today s q =
      formatDate (addDays dt
        (if q ≤ 10 then 0 else if q ≤ 100 then 1 else if q ≤ 1000 then 4 else 7)) := by
  simp [get_supplier_delivery_date, h]

theorem gsdd_fallback_eq (today : Date) (s : String) (q : Int)
    (h : parseISODate (splitBeforeT s.data) = none) :
    get_supplier_delivery_date today s q =
      formatDate (addDays today
        (if q ≤ 10 then 0 else if q ≤ 100 then 1 else if q ≤ 1000 then 4 else 7)) := by
  simp [get_supplier_delivery_date, h]

/-- **C9.** The delivery estimator is a pure function of the base date and the
quantity: whenever the base date parses, the result is that date plus
0/1/4/7 days for the tiers `<= 10`, `11..100`, `101..1000`, `> 1000`, with no
dependence on the current process date; the lead-time table instances
`f(d,10) = d`, `f(d,11) = f(d,100) = d+1`, `f(d,101) = f(d,1000) = d+4`,
`f(d,1001) = d+7` hold at `d = 2025-03-15`; and an unparseable base date
falls back to the current process date (the function is total, it never
raises). -/
theorem C9_get_supplier_delivery_date :
    (∀ (today : Date) (s : String) (q : Int) (dt : Date),
        parseISODate (splitBeforeT s.data) = some dt →
        get_supplier_delivery_date today s q =
          formatDate (addDays dt
            (if q ≤ 10 then 0 else if q ≤ 100 then 1 else if q ≤ 1000 then 4 else 7))) ∧
    (∀ (today : Date) (s : String) (q : Int),
        parseISODate (splitBeforeT s.data) = none →
        get_supplier_delivery_date today s q =
          formatDate (addDays today
            (if q ≤ 10 then 0 else if q ≤ 100 then 1 else if q ≤ 1000 then 4 else 7))) ∧
    (∀ today : Date,
        get_supplier_delivery_date today "2025-03-15" 10 = "2025-03-15" ∧
        get_supplier_delivery_date today "2025-03-15" 11 = "2025-03-16" ∧
        get_supplier_delivery_date today "2025-03-15" 100 = "2025-03-16" ∧
        get_supplier_delivery_date today "2025-03-15" 101 = "2025-03-19" ∧
        get_supplier_delivery_date today "2025-03-15" 1000 = "2025-03-19" ∧
        get_supplier_delivery_date today "2025-03-15" 1001 = "2025-03-22") := by
  refine ⟨gsdd_parse_eq, gsdd_fallback_eq, ?_⟩
  intro today
  refine ⟨?_, ?_, ?_, ?_, ?_, ?_⟩ <;>
    rw [gsdd_parse_eq today "2025-03-15" _ ⟨2025, 3, 15⟩ (by decide)] <;> decide

/-- Witness for `C9_get_supplier_delivery_date`: the parseable conjunct at a
datetime-suffixed base date and quantity 200 (tier `+4`, crossing a month
boundary), and the fallback conjunct at an unparseable base date. -/
theorem C9_get_supplier_delivery_date_witness :
    get_supplier_delivery_date ⟨2000, 1, 1⟩ "2025-06-30T12:00:00" 200 =
      formatDate (addDays ⟨2025, 6, 30⟩ 4) ∧
    get_supplier_delivery_date ⟨2024, 2, 28⟩ "30/06/2025" 5 =
      formatDate (addDays ⟨2024, 2, 28⟩ 0) := by
  constructor
  · have h := C9_get_supplier_delivery_date.1 ⟨2000, 1, 1⟩ "2025-06-30T12:00:00" 200
      ⟨2025, 6, 30⟩ (by decide)
    simpa using h
  · have h := C9_get_supplier_delivery_date.2.1 ⟨2024, 2, 28⟩ "30/06/2025" 5 (by decide)
    simpa using h

/-- `datetime(2025, 1, 1).isoformat()`: the `transaction_date` string
`init_database` writes on every seeded row (the initial-capital cash row and
one stock order per sampled inventory item). -/
def initial_date : String := "2025-01-01T00:00:00"

/-- The initial-capital row `init_database` seeds: a `sales` transaction with
NULL `item_name`, NULL `units` and price 50000. -/
def initialCashRecord : TransactionRecord := ⟨none, "sales", none, 50000, initial_date⟩

/-- A seeded per-item stock order as `init_database` writes it
(`current_stock = 300` units of `A4 paper` at unit price 0.05). -/
def seededStockRecord : TransactionRecord :=
  ⟨some "A4 paper", "stock_orders", some 300, 15, initial_date⟩

/-- **C7** (falsified by the code).  The dates `init_database` stores are
`datetime.isoformat()` strings with a `T00:00:00` time part, which compare
strictly greater than the same calendar day's date-only string, so a record
seeded on calendar day 2025-01-01 is excluded from every query with
`as_of_date = "2025-01-01"` — the queries' documented inclusive cutoff is
violated on the record's own day (it only appears from the next day on) —
and `create_transaction` stores whatever date string the caller passes
verbatim, with no ISO-8601 normalization. -/
theorem C7_seeded_dates_not_normalized :
    get_cash_balance [initialCashRecord] "2025-01-01" = 0 ∧
    get_cash_balance [initialCashRecord] "2025-01-02" = 50000 ∧
    get_stock_level [initialCashRecord, seededStockRecord] "A4 paper" "2025-01-01" = 0 ∧
    get_stock_level [initialCashRecord, seededStockRecord] "A4 paper" "2025-01-02" = 300 ∧
    textLe initial_date "2025-01-01" = false ∧
    create_transaction [] "A4 paper" "sales" 10 1 "01/05/2025" =
      Except.ok ([⟨some "A4 paper", "sales", some 10, 1, "01/05/2025"⟩], 1) := by
  have hd1 : textLe initial_date "2025-01-01" = false := by decide
  have hd2 : textLe initial_date "2025-01-02" = true := by decide
  refine ⟨?_, ?_, ?_, ?_, hd1, ?_⟩
  · simp [get_cash_balance, initialCashRecord, hd1]
  · simp [get_cash_balance, initialCashRecord, hd2, List.filter]
  · simp [get_stock_level, initialCashRecord, seededStockRecord, hd1, List.filter]
  · simp [get_stock_level, initialCashRecord, seededStockRecord, hd2, List.filter, caseUnits]
  · rfl

/-- Key order over nullable `item_name` values as SQLite `GROUP BY item_name`
arranges its groups: NULL first, then TEXT ascending (byte order). -/
def optKeyLe : Option String → Option String → Bool
  | none, _ => true
  | some _, none => false
  | some a, some b => textLe a b

/-- Strict version of `optKeyLe`. -/
def optKeyLt (a b : Option String) : Bool := optKeyLe a b && !(a == b)

/-- Ascending insertion into a key list sorted by `optKeyLe`. -/
def insertKeyAsc (x : Option String) : List (Option String) → List (Option String)
  | [] => [x]
  | y :: ys => if optKeyLe x y then x :: y :: ys else y :: insertKeyAsc x ys

/-- Ascending insertion sort by `optKeyLe`: the order SQLite's `GROUP BY`
emits its groups in. -/
def sortKeysAsc : List (Option String) → List (Option String)
  | [] => []
  | x :: xs => insertKeyAsc x (sortKeysAsc xs)

/-- One row of the `top_selling_products` list. -/
structure TopSellingEntry where
  item_name : Option String
  total_units : Int
  total_revenue : ℚ
deriving Repr, DecidableEq

/-- The `sales` rows dated `<= d` belonging to group key `k`
(`k` may be NULL: the seeded cash row forms the NULL group). -/
def itemSales (ledger : List TransactionRecord) (d : String) (k : Option String) :
    List TransactionRecord :=
  ledger.filter (fun r => r.transaction_type == "sales"
    && textLe r.transaction_date d && r.item_name == k)

/-- `SUM(units)` of a group. -/
def total_units_of (ledger : List TransactionRecord) (d : String) (k : Option String) : Int :=
  ((itemSales ledger d k).map (fun r => r.units.getD 0)).sum

/-- `SUM(price)` of a group. -/
def total_revenue_of (ledger : List TransactionRecord) (d : String) (k : Option String) : ℚ :=
  ((itemSales ledger d k).map (fun r => r.price)).sum

/-- The distinct group keys of `GROUP BY item_name` over the `sales` rows
dated `<= d`, in the ascending order the grouping emits them. -/
def salesKeys (ledger : List TransactionRecord) (d : String) : List (Option String) :=
  sortKeysAsc (((ledger.filter (fun r => r.transaction_type == "sales"
    && textLe r.transaction_date d)).map (fun r => r.item_name)).dedup)

/-- Insertion preserving the order of equal-revenue entries: an entry is put
before the first existing entry of smaller-or-equal revenue.  This is the
stable descending sort SQLite's sorter applies for
`ORDER BY total_revenue DESC`. -/
def insertByRevenueDesc (x : TopSellingEntry) : List TopSellingEntry → List TopSellingEntry
  | [] => [x]
  | y :: ys =>
    if y.total_revenue ≤ x.total_revenue then x :: y :: ys
    else y :: insertByRevenueDesc x ys

/-- Stable descending insertion sort by `total_revenue`. -/
def sortByRevenueDesc : List TopSellingEntry → List TopSellingEntry
  | [] => []
  | x :: xs => insertByRevenueDesc x (sortByRevenueDesc xs)

/-- The `top_selling_products` field of `generate_financial_report(as_of_date)`
(`project_starter.py:522`): group the `sales` rows dated `<= as_of_date` by
`item_name`, compute `SUM(units)` and `SUM(price)` per group, order by
`total_revenue DESC` (stable over the ascending group order) and keep the
first 5 rows (`LIMIT 5`). -/
def top_selling_products (ledger : List TransactionRecord) (as_of_date : String) :
    List TopSellingEntry :=
  (sortByRevenueDesc ((salesKeys ledger as_of_date).map
    (fun k => ⟨k, total_units_of ledger as_of_date k,
      total_revenue_of ledger as_of_date k⟩))).take 5

theorem strLeList_total (a : List Char) : ∀ b, strLeList a b = true ∨ strLeList b a = true := by
  induction a with
  | nil => intro b; left; rfl
  | cons c cs ih =>
    intro b
    cases b with
    | nil => right; rfl
    | cons e es =>
      simp only [strLeList]
      by_cases h1 : c.toNat < e.toNat
      · left; simp [h1]
      · by_cases h2 : e.toNat < c.toNat
        · right; simp [h1, h2]
        · rcases ih es with h | h
          · left; simp [h1, h2, h]
          · right; simp [h1, h2, h]

theorem strLeList_trans (a : List Char) :
    ∀ b c, strLeList a b = true → strLeList b c = true → strLeList a c = true := by
  induction a with
  | nil => intro b c _ _; rfl
  | cons x xs ih =>
    intro b c hab hbc
    cases b with
    | nil => simp [strLeList] at hab
    | cons y ys =>
      cases c with
      | nil => simp [strLeList] at hbc
      | cons z zs =>
        simp only [strLeList] at hab hbc ⊢
        split_ifs at hab hbc ⊢ <;>
          first
          | rfl
          | omega
          | exact ih ys zs hab hbc

theorem optKeyLe_total (a b : Option String) : optKeyLe a b = true ∨ optKeyLe b a = true := by
  cases a with
  | none => left; rfl
  | some s =>
    cases b with
    | none => right; rfl
    | some t => exact strLeList_total s.data t.data

theorem optKeyLe_trans (a b c : Option String) (hab : optKeyLe a b = true)
    (hbc : optKeyLe b c = true) : optKeyLe a c = true := by
  cases a with
  | none => rfl
  | some s =>
    cases b with
    | none => simp [optKeyLe] at hab
    | some t =>
      cases c with
      | none => simp [optKeyLe] at hbc
      | some u => exact strLeList_trans s.data t.data u.data hab hbc

theorem mem_insertKeyAsc (x z : Option String) (l : List (Option String)) :
    z ∈ insertKeyAsc x l ↔ z = x ∨ z ∈ l := by
  induction l with
  | nil => simp [insertKeyAsc]
  | cons y ys ih =>
    simp only [insertKeyAsc]
    by_cases h : optKeyLe x y
    · rw [if_pos h]
      simp only [List.mem_cons]
    · rw [if_neg h]
      simp only [List.mem_cons, ih]
      tauto

theorem perm_insertKeyAsc (x : Option String) (l : List (Option String)) :
    List.Perm (insertKeyAsc x l) (x :: l) := by
  induction l with
  | nil => exact List.Perm.refl _
  | cons y ys ih =>
    simp only [insertKeyAsc]
    by_cases h : optKeyLe x y
    · rw [if_pos h]
    · rw [if_neg h]
      exact (ih.cons y).trans (List.Perm.swap x y ys)

theorem pairwise_insertKeyAsc (x : Option String) (l : List (Option String))
    (h : l.Pairwise (fun a b => optKeyLe a b = true)) :
    (insertKeyAsc x l).Pairwise (fun a b => optKeyLe a b = true) := by
  induction l with
  | nil => simp [insertKeyAsc]
  | cons y ys ih =>
    rw [List.pairwise_cons] at h
    simp only [insertKeyAsc]
    by_cases hxy : optKeyLe x y
    · rw [if_pos hxy]
      refine List.Pairwise.cons ?_ (List.Pairwise.cons h.1 h.2)
      intro z hz
      rcases List.mem_cons.mp hz with rfl | hz
      · exact hxy
      · exact optKeyLe_trans x y z hxy (h.1 z hz)
    · rw [if_neg hxy]
      refine List.Pairwise.cons ?_ (ih h.2)
      intro z hz
      rcases (mem_insertKeyAsc x z ys).mp hz with heq | hz
      · rcases optKeyLe_total x y with hx | hx
        · exact absurd hx hxy
        · rw [heq]
          exact hx
      · exact h.1 z hz

theorem perm_sortKeysAsc (l : List (Option String)) : List.Perm (sortKeysAsc l) l := by
  induction l with
  | nil => exact List.Perm.refl _
  | cons x xs ih =>
    exact (perm_insertKeyAsc x (sortKeysAsc xs)).trans (ih.cons x)

theorem pairwise_sortKeysAsc (l : List (Option String)) :
    (sortKeysAsc l).Pairwise (fun a b => optKeyLe a b = true) := by
  induction l with
  | nil => exact List.Pairwise.nil
  | cons x xs ih => exact pairwise_insertKeyAsc x (sortKeysAsc xs) ih

theorem mem_sortKeysAsc (z : Option String) (l : List (Option String)) :
    z ∈ sortKeysAsc l ↔ z ∈ l := (perm_sortKeysAsc l).mem_iff

theorem salesKeys_nodup (l : List TransactionRecord) (d : String) :
    (salesKeys l d).Nodup :=
  (perm_sortKeysAsc _).nodup_iff.mpr (List.nodup_dedup _)

theorem salesKeys_pairwise_lt (l : List TransactionRecord) (d : String) :
    (salesKeys l d).Pairwise (fun a b => optKeyLt a b = true) := by
  have hle : (salesKeys l d).Pairwise (fun a b => optKeyLe a b = true) :=
    pairwise_sortKeysAsc _
  have hne : (salesKeys l d).Pairwise (fun a b => a ≠ b) := salesKeys_nodup l d
  refine (hle.and hne).imp ?_
  intro a b hab
  simp only [optKeyLt, hab.1, Bool.true_and, Bool.not_eq_true']
  exact beq_eq_false_iff_ne.mpr hab.2

/-- The order the claim asserts for `top_selling_products`: strictly greater
revenue first, ties in strictly ascending `item_name` order. -/
def revLex (q : TopSellingEntry → TopSellingEntry → Prop) (a b : TopSellingEntry) : Prop :=
  b.total_revenue < a.total_revenue ∨ (b.total_revenue = a.total_revenue ∧ q a b)

theorem mem_insertByRevenueDesc (x z : TopSellingEntry) (l : List TopSellingEntry) :
    z ∈ insertByRevenueDesc x l ↔ z = x ∨ z ∈ l := by
  induction l with
  | nil => simp [insertByRevenueDesc]
  | cons y ys ih =>
    simp only [insertByRevenueDesc]
    by_cases h : y.total_revenue ≤ x.total_revenue
    · rw [if_pos h]
      simp [List.mem_cons]
    · rw [if_neg h]
      simp only [List.mem_cons, ih]
      tauto

theorem pairwise_insertByRevenueDesc (q : TopSellingEntry → TopSellingEntry → Prop)
    (x : TopSellingEntry) (l : List TopSellingEntry)
    (hl : l.Pairwise (revLex q)) (hx : ∀ y ∈ l, q x y) :
    (insertByRevenueDesc x l).Pairwise (revLex q) := by
  induction l with
  | nil => simp [insertByRevenueDesc, List.Pairwise.nil]
  | cons y ys ih =>
    rw [List.pairwise_cons] at hl
    simp only [insertByRevenueDesc]
    by_cases hyx : y.total_revenue ≤ x.total_revenue
    · rw [if_pos hyx]
      refine List.Pairwise.cons ?_ (List.Pairwise.cons hl.1 hl.2)
      intro z hz
      rcases List.mem_cons.mp hz with heq0 | hz
      · rw [heq0]
        rcases lt_or_eq_of_le hyx with hlt | heq
        · exact Or.inl hlt
        · exact Or.inr ⟨heq, hx y (List.mem_cons_self _ _)⟩
      · have hzy : z.total_revenue ≤ y.total_revenue := by
          rcases hl.1 z hz with hlt | ⟨heq, _⟩
          · exact le_of_lt hlt
          · exact le_of_eq heq
        rcases lt_or_eq_of_le (le_trans hzy hyx) with hlt | heq
        · exact Or.inl hlt
        · exact Or.inr ⟨heq, hx z (List.mem_cons_of_mem _ hz)⟩
    · rw [if_neg hyx]
      have hxy : x.total_revenue < y.total_revenue := not_le.mp hyx
      refine List.Pairwise.cons ?_
        (ih hl.2 (fun z hz => hx z (List.mem_cons_of_mem _ hz)))
      intro z hz
      rcases (mem_insertByRevenueDesc x z ys).mp hz with heq | hz
      · rw [heq]
        exact Or.inl hxy
      · exact hl.1 z hz

theorem mem_sortByRevenueDesc (z : TopSellingEntry) (l : List TopSellingEntry) :
    z ∈ sortByRevenueDesc l ↔ z ∈ l := by
  induction l with
  | nil => simp [sortByRevenueDesc]
  | cons x xs ih =>
    simp only [sortByRevenueDesc, mem_insertByRevenueDesc, ih, List.mem_cons]

theorem pairwise_sortByRevenueDesc (q : TopSellingEntry → TopSellingEntry → Prop)
    (l : List TopSellingEntry) (h : l.Pairwise q) :
    (sortByRevenueDesc l).Pairwise (revLex q) := by
  induction l with
  | nil => exact List.Pairwise.nil
  | cons x xs ih =>
    rw [List.pairwise_cons] at h
    exact pairwise_insertByRevenueDesc q x (sortByRevenueDesc xs) (ih h.2)
      (fun y hy => h.1 y ((mem_sortByRevenueDesc y xs).mp hy))

theorem mem_salesKeys (l : List TransactionRecord) (d : String) (k : Option String) :
    k ∈ salesKeys l d ↔
      ∃ r ∈ l, r.transaction_type = "sales" ∧ textLe r.transaction_date d = true ∧
        r.item_name = k := by
  simp only [salesKeys, mem_sortKeysAsc, List.mem_dedup, List.mem_map, List.mem_filter,
    Bool.and_eq_true, beq_iff_eq]
  constructor
  · rintro ⟨r, ⟨hr, ht, hd⟩, hk⟩
    exact ⟨r, hr, ht, hd, hk⟩
  · rintro ⟨r, hr, ht, hd, hk⟩
    exact ⟨r, ⟨hr, ht, hd⟩, hk⟩

/-- **C6.** `top_selling_products` of `generate_financial_report(d)` groups the
`sales` rows dated `<= d` by item (the group keys are exactly the item values
of those rows), carries each group's `SUM(units)` and `SUM(price)` as
`total_units` and `total_revenue`, is ordered by `total_revenue` descending
with ties in ascending `item_name` order, and has at most 5 entries. -/
theorem C6_top_selling_products_ordered :
    ∀ (l : List TransactionRecord) (d : String),
      (top_selling_products l d).length ≤ 5 ∧
      (top_selling_products l d).Pairwise (fun a b =>
        b.total_revenue < a.total_revenue ∨
          (b.total_revenue = a.total_revenue ∧ optKeyLt a.item_name b.item_name = true)) ∧
      (∀ e ∈ top_selling_products l d,
        e.total_units = total_units_of l d e.item_name ∧
        e.total_revenue = total_revenue_of l d e.item_name ∧
        e.item_name ∈ salesKeys l d) ∧
      (∀ k, k ∈ salesKeys l d ↔
        ∃ r ∈ l, r.transaction_type = "sales" ∧ textLe r.transaction_date d = true ∧
          r.item_name = k) := by
  intro l d
  refine ⟨?_, ?_, ?_, fun k => mem_salesKeys l d k⟩
  · rw [top_selling_products, List.length_take]
    exact min_le_left _ _
  · have hq : ((salesKeys l d).map (fun k =>
        (⟨k, total_units_of l d k, total_revenue_of l d k⟩ : TopSellingEntry))).Pairwise
        (fun a b => optKeyLt a.item_name b.item_name = true) :=
      List.Pairwise.map _ (fun a b hab => hab) (salesKeys_pairwise_lt l d)
    have hsorted := pairwise_sortByRevenueDesc
      (fun a b => optKeyLt a.item_name b.item_name = true) _ hq
    exact List.Pairwise.sublist (List.take_sublist _ _) hsorted
  · intro e he
    have h1 := List.take_subset _ _ he
    rw [mem_sortByRevenueDesc] at h1
    rcases List.mem_map.mp h1 with ⟨k, hk, rfl⟩
    exact ⟨rfl, rfl, hk⟩

/-- Witness for `C6_top_selling_products_ordered` on the concrete scenario
ledger: the list is within the 5-entry limit and the `A4 paper` sales row of
2025-01-10 forms a group key. -/
theorem C6_top_selling_products_ordered_witness :
    (top_selling_products scenarioLedger "2025-01-10").length ≤ 5 ∧
    some "A4 paper" ∈ salesKeys scenarioLedger "2025-01-10" := by
  constructor
  · exact (C6_top_selling_products_ordered scenarioLedger "2025-01-10").1
  · refine ((C6_top_selling_products_ordered scenarioLedger "2025-01-10").2.2.2
      (some "A4 paper")).mpr ?_
    refine ⟨⟨some "A4 paper", "sales", some 200, 40, "2025-01-10"⟩, ?_, rfl, by decide, rfl⟩
    exact List.Mem.tail _ (List.Mem.head _)
